import Mathlib

/-!
Verification of the poker-ledger backend's reconciliation engine.

The development shallowly embeds the backend's ledger code:
the summary endpoint (`GET /api/game/:sessionId/summary`), the
settlement-note scanning it performs on cashout notes, the till-discrepancy
analyzer (`POST /api/ai/analyze-till`) with its defensive normalization of
the external collaborator's JSON reply, and the dealer tip-claiming endpoint
(`POST /api/dealers/claim-tips-by-dealer`).

Monetary amounts are embedded as exact rationals (`Rat`); the JavaScript
source computes with IEEE doubles, whose rounding is not modelled.
-/

set_option autoImplicit false

namespace PokerLedger

/-! ## Settlement-note scanning

The summary endpoint and the analyzer extract amounts from free-text notes
with the regular expressions

  received \$(\d+(?:\.\d{2})?) cash
  cash paid: \$(\d+(?:\.\d{2})?)\)
  credit settled: \$(\d+(?:\.\d{2})?)
  paid \$(\d+(?:\.\d{2})?) credit

Each is a literal, a greedy digit run, an optional two-digit fraction and a
literal tail.  `tryAt` attempts one such pattern at the start of a string
(with the engine's backtracking over the optional fraction) and `scanFor`
performs the engine's leftmost search over all start positions.  Backtracking
inside `\d+` can never help here because the pattern after the digit run
starts with a non-digit, so taking the digit run greedily is faithful. -/

/-- Numeric value of a digit run, most significant digit first. -/
def natOfDigits (ds : List Char) : Nat :=
  ds.foldl (fun n c => 10 * n + (c.toNat - '0'.toNat)) 0

/-- Greedy `\d+`: split off the leading run of decimal digits. -/
def splitDigits : List Char → List Char × List Char
  | [] => ([], [])
  | c :: rest =>
    if c.isDigit then
      let p := splitDigits rest
      (c :: p.1, p.2)
    else ([], c :: rest)

/-- Match a literal at the start of a string, returning the remainder. -/
def dropLit : List Char → List Char → Option (List Char)
  | [], s => some s
  | _ :: _, [] => none
  | l :: ls, c :: cs => if c = l then dropLit ls cs else none

/-- `parseFloat` of the captured group: the digit run's value, plus the
optional two-digit fraction (an exact decimal, so exact as a rational). -/
def amountVal (ds : List Char) : Option (Char × Char) → Rat
  | none => (natOfDigits ds : Rat)
  | some (a, b) => (natOfDigits ds : Rat) + (natOfDigits [a, b] : Rat) / 100

/-- Attempt `lit ++ \d+(\.\d{2})? ++ suffix` at the start of `s`.  The
optional fraction is taken greedily and given up again when the suffix fails
to match right after it, exactly as the regex engine backtracks. -/
def tryAt (lit suffix s : List Char) : Option Rat :=
  match dropLit lit s with
  | none => none
  | some r =>
    match splitDigits r with
    | ([], _) => none
    | (ds, rest) =>
      match rest with
      | '.' :: a :: b :: rest2 =>
        if a.isDigit && b.isDigit && suffix.isPrefixOf rest2 then
          some (amountVal ds (some (a, b)))
        else if suffix.isPrefixOf rest then some (amountVal ds none)
        else none
      | rest => if suffix.isPrefixOf rest then some (amountVal ds none) else none

/-- Leftmost search: try the pattern at every start position. -/
def scanFor (lit suffix : List Char) : List Char → Option Rat
  | [] => tryAt lit suffix []
  | c :: rest =>
    match tryAt lit suffix (c :: rest) with
    | some v => some v
    | none => scanFor lit suffix rest

/-- The new-format actual-cash pattern `received $X cash`. -/
def parseReceivedCash (n : List Char) : Option Rat :=
  scanFor (("received $").data) ((" cash").data) n

/-- The legacy actual-cash pattern `cash paid: $X)`. -/
def parseCashPaid (n : List Char) : Option Rat :=
  scanFor (("cash paid: $").data) ((")").data) n

/-- The legacy credit-settlement pattern `credit settled: $X`. -/
def parseCreditSettled (n : List Char) : Option Rat :=
  scanFor (("credit settled: $").data) [] n

/-- The new-format credit-settlement pattern `paid $X credit`. -/
def parsePaidCredit (n : List Char) : Option Rat :=
  scanFor (("paid $").data) ((" credit").data) n

/-- `String.prototype.includes`: substring occurrence. -/
def containsSub (needle : List Char) : List Char → Bool
  | [] => needle.isEmpty
  | c :: rest => needle.isPrefixOf (c :: rest) || containsSub needle rest

/-! ## Data model

The event records a `GameSession` owns, restricted to the fields the
reconciliation code reads. -/

inductive TxType where
  | buyIn
  | cashout
deriving DecidableEq

inductive PayMethod where
  | cash
  | electronic
  | credit
deriving DecidableEq

structure PlayerTransaction where
  id : String
  playerName : String
  type : TxType
  amount : Rat
  paymentMethod : PayMethod
  notes : Option String
  isPaid : Bool
deriving DecidableEq

structure DealerDown where
  id : String
  dealerName : String
  tips : Rat
  rake : Rat
  tipsPaid : Bool
  rakeClaimed : Bool
  gameSessionId : String
deriving DecidableEq

structure Expense where
  id : String
  description : String
  amount : Rat
  category : String
  paidOut : Bool
deriving DecidableEq

structure GameSession where
  id : String
  totalRake : Rat
deriving DecidableEq

/-! ## Ledger aggregation (summary endpoint)

Each definition mirrors one `const` of the summary handler; the JS
`Array.prototype.reduce((sum, t) => sum + …, 0)` is a left fold. -/

def totalBuyIns (txs : List PlayerTransaction) : Rat :=
  (txs.filter fun t => t.type = TxType.buyIn).foldl (fun s t => s + t.amount) 0

def totalCashouts (txs : List PlayerTransaction) : Rat :=
  (txs.filter fun t => t.type = TxType.cashout).foldl (fun s t => s + t.amount) 0

def totalTips (downs : List DealerDown) : Rat :=
  downs.foldl (fun s d => s + d.tips) 0

/-- Session-level rake (logged from the drop-box count) overrides the
per-down sum when positive. -/
def totalRakeOf (session : GameSession) (downs : List DealerDown) : Rat :=
  if session.totalRake > 0 then session.totalRake
  else downs.foldl (fun s d => s + d.rake) 0

def totalExpensesOf (exps : List Expense) : Rat :=
  exps.foldl (fun s e => s + e.amount) 0

def totalPaidTips (downs : List DealerDown) : Rat :=
  (downs.filter fun d => d.tipsPaid).foldl (fun s d => s + d.tips) 0

def cashBuyIns (txs : List PlayerTransaction) : Rat :=
  (txs.filter fun t => t.type = TxType.buyIn ∧ t.paymentMethod = PayMethod.cash).foldl
    (fun s t => s + t.amount) 0

/-- Body of the cash-cashout reduce: a note matching the new actual-cash
format wins, then the legacy format, otherwise the nominal amount stands.
Absent notes (`null` or the falsy empty string) also leave the nominal
amount; scanning the empty string fails, so one branch covers both. -/
def cashoutContribution (t : PlayerTransaction) : Rat :=
  match t.notes with
  | some n =>
    match parseReceivedCash n.data with
    | some v => v
    | none =>
      match parseCashPaid n.data with
      | some v => v
      | none => t.amount
  | none => t.amount

def cashCashouts (txs : List PlayerTransaction) : Rat :=
  (txs.filter fun t => t.type = TxType.cashout ∧ t.paymentMethod = PayMethod.cash).foldl
    (fun s t => s + cashoutContribution t) 0

/-- Filter of the auto-settled-credit pass: cashouts whose notes contain one
of the marker substrings (`t.notes?.includes(…)`). -/
def autoSettledFilter (t : PlayerTransaction) : Bool :=
  decide (t.type = TxType.cashout) &&
    (match t.notes with
     | some n =>
       containsSub (("credit settled:").data) n.data || containsSub (("paid $").data) n.data
     | none => false)

/-- Body of the auto-settled-credit reduce: legacy format first, then the
new format, otherwise zero. -/
def creditExtract (t : PlayerTransaction) : Rat :=
  match t.notes with
  | none => 0
  | some n =>
    match parseCreditSettled n.data with
    | some v => v
    | none => (parsePaidCredit n.data).getD 0

def autoSettledCredit (txs : List PlayerTransaction) : Rat :=
  (txs.filter autoSettledFilter).foldl (fun s t => s + creditExtract t) 0

def paidCreditBuyIns (txs : List PlayerTransaction) : Rat :=
  (txs.filter fun t =>
      t.type = TxType.buyIn ∧ t.paymentMethod = PayMethod.credit ∧ t.isPaid = true).foldl
    (fun s t => s + t.amount) 0

def manuallyPaidCredit (txs : List PlayerTransaction) : Rat :=
  max 0 (paidCreditBuyIns txs - autoSettledCredit txs)

def tillBalance (txs : List PlayerTransaction) (downs : List DealerDown)
    (exps : List Expense) : Rat :=
  cashBuyIns txs + manuallyPaidCredit txs - cashCashouts txs - totalPaidTips downs -
    totalExpensesOf exps

/-! The per-player credit map, embedded as an insertion-ordered association
list: `Map.set` overwrites an existing key in place and appends a new key. -/

def lookupA (p : String) : List (String × Rat × Rat) → Option (Rat × Rat)
  | [] => none
  | (q, v) :: rest => if q = p then some v else lookupA p rest

def setA (p : String) (v : Rat × Rat) : List (String × Rat × Rat) →
    List (String × Rat × Rat)
  | [] => [(p, v)]
  | (q, w) :: rest => if q = p then (q, v) :: rest else (q, w) :: setA p v rest

/-- One step of the credit-map forEach: credit transactions update their
player's entry (unpaid buy-ins, all cashouts); the entry is (re)stored even
when neither branch applies. -/
def creditStep (m : List (String × Rat × Rat)) (t : PlayerTransaction) :
    List (String × Rat × Rat) :=
  if t.paymentMethod = PayMethod.credit then
    let prev := (lookupA t.playerName m).getD (0, 0)
    let next :=
      if t.type = TxType.buyIn ∧ t.isPaid = false then (prev.1 + t.amount, prev.2)
      else if t.type = TxType.cashout then (prev.1, prev.2 + t.amount)
      else prev
    setA t.playerName next m
  else m

def playerCreditMap (txs : List PlayerTransaction) : List (String × Rat × Rat) :=
  txs.foldl creditStep []

/-- Sum of `max 0 (buyIns − cashouts)` over the credit map's entries. -/
def creditBalance (txs : List PlayerTransaction) : Rat :=
  (playerCreditMap txs).foldl (fun s e => s + max 0 (e.2.1 - e.2.2)) 0

/-- `new Set(transactions.map(t => t.playerName)).size`. -/
def playerCount (txs : List PlayerTransaction) : Nat :=
  (txs.map fun t => t.playerName).dedup.length

structure GameSummary where
  session : GameSession
  totalBuyIns : Rat
  totalCashouts : Rat
  totalTips : Rat
  totalRake : Rat
  totalExpenses : Rat
  netProfit : Rat
  tillBalance : Rat
  playerCount : Nat
  creditBalance : Rat

/-- The summary endpoint's response body (timestamps and echoes aside). -/
def computeSummary (session : GameSession) (txs : List PlayerTransaction)
    (downs : List DealerDown) (exps : List Expense) : GameSummary :=
  { session := session
    totalBuyIns := totalBuyIns txs
    totalCashouts := totalCashouts txs
    totalTips := totalTips downs
    totalRake := totalRakeOf session downs
    totalExpenses := totalExpensesOf exps
    netProfit := totalRakeOf session downs - totalExpensesOf exps
    tillBalance := tillBalance txs downs exps
    playerCount := playerCount txs
    creditBalance := creditBalance txs }

/-! ## The analyzer's expected till

The analyze-till endpoint recomputes the same cash components and, unlike
the summary endpoint, also subtracts the claimed rake. -/

def totalClaimedRake (downs : List DealerDown) : Rat :=
  (downs.filter fun d => d.rakeClaimed).foldl (fun s d => s + d.rake) 0

def expectedTill (txs : List PlayerTransaction) (downs : List DealerDown)
    (exps : List Expense) : Rat :=
  cashBuyIns txs + manuallyPaidCredit txs - cashCashouts txs - totalPaidTips downs -
    totalClaimedRake downs - totalExpensesOf exps

/-! ## Spec-level sums

Independently written readings of the specification's formulas, as
filter/map/sum; the theorems connect the endpoint folds to these. -/

/-- Sum of a projection over a list. -/
def sumOf {α : Type} (f : α → Rat) (l : List α) : Rat := (l.map f).sum

def specCashBuyIns (txs : List PlayerTransaction) : Rat :=
  sumOf (fun t => t.amount)
    (txs.filter fun t => t.type = TxType.buyIn ∧ t.paymentMethod = PayMethod.cash)

def specPaidTips (downs : List DealerDown) : Rat :=
  sumOf (fun d => d.tips) (downs.filter fun d => d.tipsPaid)

def specAllExpenses (exps : List Expense) : Rat :=
  sumOf (fun e => e.amount) exps

def specClaimedRake (downs : List DealerDown) : Rat :=
  sumOf (fun d => d.rake) (downs.filter fun d => d.rakeClaimed)

def specPaidCreditBuyIns (txs : List PlayerTransaction) : Rat :=
  sumOf (fun t => t.amount)
    (txs.filter fun t =>
      t.type = TxType.buyIn ∧ t.paymentMethod = PayMethod.credit ∧ t.isPaid = true)

/-- The spec's auto-settled credit: extraction summed over all cashouts,
with no marker-substring pre-filter. -/
def specAutoSettledCredit (txs : List PlayerTransaction) : Rat :=
  sumOf creditExtract (txs.filter fun t => t.type = TxType.cashout)

def specUnpaidCreditBuyIns (p : String) (txs : List PlayerTransaction) : Rat :=
  sumOf (fun t => t.amount)
    (txs.filter fun t =>
      t.playerName = p ∧ t.paymentMethod = PayMethod.credit ∧ t.type = TxType.buyIn ∧
        t.isPaid = false)

def specCreditCashouts (p : String) (txs : List PlayerTransaction) : Rat :=
  sumOf (fun t => t.amount)
    (txs.filter fun t =>
      t.playerName = p ∧ t.paymentMethod = PayMethod.credit ∧ t.type = TxType.cashout)

/-- Names of the players appearing in credit-method transactions. -/
def creditPlayers (txs : List PlayerTransaction) : List String :=
  (txs.filter fun t => t.paymentMethod = PayMethod.credit).map fun t => t.playerName

/-! ## Fold-to-sum bridge -/

theorem foldl_add_eq {α : Type} (f : α → Rat) (l : List α) (init : Rat) :
    l.foldl (fun s a => s + f a) init = init + (l.map f).sum := by
  induction l generalizing init with
  | nil => simp
  | cons a t ih => simp only [List.foldl_cons, List.map_cons, List.sum_cons, ih]; ring

theorem totalPaidTips_eq_spec (downs : List DealerDown) :
    totalPaidTips downs = specPaidTips downs := by
  simp [totalPaidTips, specPaidTips, sumOf, foldl_add_eq]

theorem totalExpensesOf_eq_spec (exps : List Expense) :
    totalExpensesOf exps = specAllExpenses exps := by
  simp [totalExpensesOf, specAllExpenses, sumOf, foldl_add_eq]

theorem totalClaimedRake_eq_spec (downs : List DealerDown) :
    totalClaimedRake downs = specClaimedRake downs := by
  simp [totalClaimedRake, specClaimedRake, sumOf, foldl_add_eq]

theorem cashBuyIns_eq_spec (txs : List PlayerTransaction) :
    cashBuyIns txs = specCashBuyIns txs := by
  simp [cashBuyIns, specCashBuyIns, sumOf, foldl_add_eq]

theorem paidCreditBuyIns_eq_spec (txs : List PlayerTransaction) :
    paidCreditBuyIns txs = specPaidCreditBuyIns txs := by
  simp [paidCreditBuyIns, specPaidCreditBuyIns, sumOf, foldl_add_eq]

theorem cashCashouts_eq_sum (txs : List PlayerTransaction) :
    cashCashouts txs =
      sumOf cashoutContribution
        (txs.filter fun t => t.type = TxType.cashout ∧ t.paymentMethod = PayMethod.cash) := by
  simp [cashCashouts, sumOf, foldl_add_eq]

/-! ## Marker substrings and extraction support

A successful scan implies the scanned-for literal occurs in the string, so
a note that lacks both marker substrings extracts nothing; dropping the
endpoint's `includes` pre-filter therefore does not change the sum. -/

theorem isPrefixOf_self (l : List Char) : l.isPrefixOf l = true := by
  induction l with
  | nil => rfl
  | cons c rest ih => simp [List.isPrefixOf, ih]

theorem tryAt_isPrefixOf {lit suffix s : List Char} {v : Rat}
    (h : tryAt lit suffix s = some v) : lit.isPrefixOf s = true := by
  unfold tryAt at h
  cases hd : dropLit lit s with
  | none => rw [hd] at h; exact absurd h (by simp)
  | some r =>
    clear h
    induction lit generalizing s with
    | nil => cases s <;> rfl
    | cons l ls ih =>
      cases s with
      | nil => exact absurd hd (by simp [dropLit])
      | cons c cs =>
        unfold dropLit at hd
        by_cases hc : c = l
        · simp only [hc, if_pos rfl] at hd
          simpa [List.isPrefixOf, hc] using ih hd
        · simp [if_neg hc] at hd

theorem scanFor_containsSub {lit suffix s : List Char} {v : Rat}
    (h : scanFor lit suffix s = some v) : containsSub lit s = true := by
  induction s with
  | nil =>
    unfold scanFor at h
    have hp := tryAt_isPrefixOf h
    cases lit with
    | nil => rfl
    | cons l ls => simp [List.isPrefixOf] at hp
  | cons c rest ih =>
    unfold scanFor at h
    cases ht : tryAt lit suffix (c :: rest) with
    | some w => simp [containsSub, tryAt_isPrefixOf ht]
    | none => rw [ht] at h; simp [containsSub, ih h]

theorem containsSub_mono {pre lit s : List Char}
    (hp : pre.isPrefixOf lit = true) (h : containsSub lit s = true) :
    containsSub pre s = true := by
  induction s with
  | nil =>
    simp only [containsSub, List.isEmpty_iff] at h ⊢
    subst h
    cases pre with
    | nil => rfl
    | cons a as => simp [List.isPrefixOf] at hp
  | cons c rest ih =>
    simp only [containsSub, Bool.or_eq_true] at h ⊢
    rcases h with h | h
    · left
      have : pre <+: lit := List.isPrefixOf_iff_prefix.mp hp
      have h2 : lit <+: c :: rest := List.isPrefixOf_iff_prefix.mp h
      exact List.isPrefixOf_iff_prefix.mpr (this.trans h2)
    · right; exact ih h

/-- A cashout note failing both marker-substring tests extracts nothing. -/
theorem creditExtract_eq_zero_of_not_marked (t : PlayerTransaction)
    (h : autoSettledFilter t = false) (hty : t.type = TxType.cashout) :
    creditExtract t = 0 := by
  unfold autoSettledFilter at h
  rw [hty] at h
  simp only [decide_True, Bool.true_and] at h
  unfold creditExtract
  cases hn : t.notes with
  | none => rfl
  | some n =>
    rw [hn] at h
    simp only [Bool.or_eq_false_iff] at h
    cases hcs : parseCreditSettled n.data with
    | some v =>
      have := @containsSub_mono (("credit settled:").data) _ _
        (by decide) (scanFor_containsSub hcs)
      rw [this] at h
      exact absurd h.1 (by simp)
    | none =>
      cases hpc : parsePaidCredit n.data with
      | some v =>
        have := @containsSub_mono (("paid $").data) _ _
          (isPrefixOf_self _) (scanFor_containsSub hpc)
        rw [this] at h
        exact absurd h.2 (by simp)
      | none => simp [hcs, hpc]

theorem sum_filter_of_zero {α : Type} (f : α → Rat) (q : α → Bool) (l : List α)
    (h0 : ∀ x ∈ l, q x = false → f x = 0) :
    ((l.filter q).map f).sum = (l.map f).sum := by
  induction l with
  | nil => rfl
  | cons a rest ih =>
    have ih' := ih fun x hx => h0 x (List.mem_cons_of_mem a hx)
    cases hq : q a with
    | true => simp [List.filter_cons, hq, ih']
    | false =>
      simp [List.filter_cons, hq, ih', h0 a (List.mem_cons_self a rest) hq]

theorem autoSettledCredit_eq_spec (txs : List PlayerTransaction) :
    autoSettledCredit txs = specAutoSettledCredit txs := by
  unfold autoSettledCredit specAutoSettledCredit
  rw [foldl_add_eq, zero_add, sumOf]
  have hff : txs.filter autoSettledFilter =
      (txs.filter fun t => t.type = TxType.cashout).filter
        fun t => autoSettledFilter t := by
    rw [List.filter_filter]
    congr 1
    funext t
    unfold autoSettledFilter
    cases t.notes <;> cases hty : decide (t.type = TxType.cashout) <;>
      simp_all [autoSettledFilter]
  rw [hff]
  exact sum_filter_of_zero creditExtract _ _ fun x hx hq =>
    creditExtract_eq_zero_of_not_marked x hq (by simpa using (List.mem_filter.mp hx).2)

/-! ## C1: the analyzer's expected till versus the summary's till balance -/

/-- C1: for every session and event set, the analyzer's `expectedTill` is the
summary endpoint's `tillBalance` minus the claimed-rake sum: the two till
formulas are built from the same cash components (cash buy-ins, manually-paid
credit, cash-equivalent cashouts, paid tips, expenses) and differ exactly in
the claimed-rake subtraction. -/
theorem expectedTill_eq_tillBalance_sub_claimedRake (session : GameSession)
    (txs : List PlayerTransaction) (downs : List DealerDown) (exps : List Expense) :
    expectedTill txs downs exps =
      (computeSummary session txs downs exps).tillBalance - specClaimedRake downs := by
  simp only [expectedTill, computeSummary, tillBalance, totalClaimedRake_eq_spec]
  ring

/-! ## C2: the summary's till-balance formula -/

/-- C2: the summary's `tillBalance` is cash buy-ins plus manually-paid credit,
minus cash-equivalent cashouts, paid tips and all expenses — where the
buy-in/tips/expense components are the spec-level filtered sums (cash-method
buy-ins only; tips over `tipsPaid` downs only; every expense regardless of
`paidOut`) and no rake term is subtracted. -/
theorem tillBalance_formula (session : GameSession) (txs : List PlayerTransaction)
    (downs : List DealerDown) (exps : List Expense) :
    (computeSummary session txs downs exps).tillBalance =
      specCashBuyIns txs + manuallyPaidCredit txs - cashCashouts txs -
        specPaidTips downs - specAllExpenses exps := by
  simp only [computeSummary, tillBalance, cashBuyIns_eq_spec, totalPaidTips_eq_spec,
    totalExpensesOf_eq_spec]

/-! ## C4: manually-paid credit and the double-counting guard -/

/-- C4: `manuallyPaidCredit` is the clamped difference of paid credit buy-ins
and the auto-settled credit extracted from cashout notes; the auto-settled sum
needs no marker pre-filter (unmatched notes extract zero), and the clamp keeps
the result nonnegative. -/
theorem manuallyPaidCredit_guard (txs : List PlayerTransaction) :
    manuallyPaidCredit txs = max 0 (specPaidCreditBuyIns txs - specAutoSettledCredit txs) ∧
    autoSettledCredit txs = specAutoSettledCredit txs ∧
    0 ≤ manuallyPaidCredit txs := by
  refine ⟨?_, autoSettledCredit_eq_spec txs, ?_⟩
  · rw [manuallyPaidCredit, paidCreditBuyIns_eq_spec, autoSettledCredit_eq_spec]
  · exact le_max_left 0 _

/-! ## C3: the cash-equivalent contribution of a cashout

Well-formed pattern occurrences at the start of a note: the literal, a
nonempty digit run, an optional `.dd` fraction, the pattern's tail, then
arbitrary trailing text (the UI writes e.g.
`received $150 cash, paid $150 credit`). -/

/-- Characters contributed by the optional two-digit fraction. -/
def fracChars : Option (Char × Char) → List Char
  | none => []
  | some (a, b) => ['.', a, b]

def fracDigitsOk : Option (Char × Char) → Bool
  | none => true
  | some (a, b) => a.isDigit && b.isDigit

theorem dropLit_append (lit rest : List Char) : dropLit lit (lit ++ rest) = some rest := by
  induction lit with
  | nil => rfl
  | cons l ls ih => simp [dropLit, ih]

theorem splitDigits_no_head (s : List Char)
    (h : ∀ c cs, s = c :: cs → c.isDigit = false) : splitDigits s = ([], s) := by
  cases s with
  | nil => rfl
  | cons c cs => simp [splitDigits, h c cs rfl]

theorem splitDigits_append (ds rest : List Char) (hds : ∀ c ∈ ds, c.isDigit = true)
    (h : ∀ c cs, rest = c :: cs → c.isDigit = false) :
    splitDigits (ds ++ rest) = (ds, rest) := by
  induction ds with
  | nil => simpa using splitDigits_no_head rest h
  | cons d dt ih =>
    have hd := hds d (List.mem_cons_self d dt)
    have iht := ih fun c hc => hds c (List.mem_cons_of_mem d hc)
    simp [splitDigits, hd, iht]

theorem isPrefixOf_append (l e : List Char) : l.isPrefixOf (l ++ e) = true := by
  induction l with
  | nil => cases e <;> rfl
  | cons c rest ih => simp [List.isPrefixOf, ih]

/-- A well-formed occurrence of `lit ++ \d+(\.\d{2})? ++ suffix` at the start
of the string matches there and extracts the numeral's value, for any
pattern whose tail starts with a non-digit other than a dot. -/
theorem tryAt_match (lit : List Char) (c : Char) (stail ds extra : List Char)
    (fr : Option (Char × Char)) (hds : ∀ x ∈ ds, x.isDigit = true) (hne : ds ≠ [])
    (hfr : fracDigitsOk fr = true) (hcd : c.isDigit = false) (hcdot : c ≠ ('.')) :
    tryAt lit (c :: stail) (lit ++ ds ++ fracChars fr ++ (c :: stail) ++ extra) =
      some (amountVal ds fr) := by
  have hshape :
      lit ++ ds ++ fracChars fr ++ (c :: stail) ++ extra =
        lit ++ (ds ++ (fracChars fr ++ ((c :: stail) ++ extra))) := by
    simp [List.append_assoc]
  have hsplit : splitDigits (ds ++ (fracChars fr ++ ((c :: stail) ++ extra))) =
      (ds, fracChars fr ++ ((c :: stail) ++ extra)) := by
    refine splitDigits_append ds _ hds fun x xs hx => ?_
    cases fr with
    | none =>
      simp only [fracChars, List.nil_append, List.cons_append] at hx
      cases hx
      exact hcd
    | some p =>
      rcases p with ⟨a, b⟩
      simp only [fracChars, List.cons_append] at hx
      cases hx
      decide
  rw [hshape]
  cases ds with
  | nil => exact absurd rfl hne
  | cons d dt =>
    simp only [tryAt, dropLit_append, hsplit]
    cases fr with
    | none =>
      simp only [fracChars, List.nil_append, List.cons_append]
      have hpre : (c :: stail).isPrefixOf (c :: (stail ++ extra)) = true :=
        isPrefixOf_append (c :: stail) extra
      split
      · rename_i heq
        rw [List.cons.injEq] at heq
        exact absurd heq.1 hcdot
      · simp [hpre]
    | some p =>
      rcases p with ⟨a, b⟩
      simp only [fracChars, List.cons_append, List.nil_append]
      have hab : a.isDigit = true ∧ b.isDigit = true := by
        simpa [fracDigitsOk, Bool.and_eq_true] using hfr
      have hpre : (c :: stail).isPrefixOf ((c :: stail) ++ extra) = true :=
        isPrefixOf_append (c :: stail) extra
      simp [hab.1, hab.2, hpre]

theorem scanFor_eq_of_tryAt {lit suffix s : List Char} {v : Rat}
    (h : tryAt lit suffix s = some v) : scanFor lit suffix s = some v := by
  cases s with
  | nil => unfold scanFor; exact h
  | cons c rest => unfold scanFor; rw [h]

theorem scanFor_none_of_head_notMem {c : Char} {lit suffix s : List Char}
    (h : ¬ c ∈ s) : scanFor (c :: lit) suffix s = none := by
  induction s with
  | nil => rfl
  | cons d rest ih =>
    have hdc : ¬ d = c := fun hd => h (hd ▸ List.mem_cons_self d rest)
    have hrest : ¬ c ∈ rest := fun hr => h (List.mem_cons_of_mem d hr)
    unfold scanFor tryAt
    simp only [dropLit, if_neg fun hx => hdc hx]
    exact ih hrest

/-- C3 (amended): the contribution of a cash cashout to `cashCashouts` is the
amount parsed from an actual-cash note pattern whose numeral has either no
fraction digits or exactly two — a note carrying the new pattern
`received $X cash` (or, failing that, the legacy `cash paid: $X)`) at its
start contributes the parsed `X`; a note matching neither pattern, or absent
notes, contribute the nominal transaction amount, with no error. -/
theorem cashoutContribution_pattern_rule :
    (∀ txs, cashCashouts txs =
      sumOf cashoutContribution
        (txs.filter fun t => t.type = TxType.cashout ∧ t.paymentMethod = PayMethod.cash)) ∧
    (∀ (t : PlayerTransaction) (n : String) (ds extra : List Char)
        (fr : Option (Char × Char)),
      t.notes = some n →
      n.data = (("received $").data) ++ ds ++ fracChars fr ++ ((" cash").data) ++ extra →
      (∀ x ∈ ds, x.isDigit = true) → ds ≠ [] → fracDigitsOk fr = true →
      cashoutContribution t = amountVal ds fr) ∧
    (∀ (t : PlayerTransaction) (n : String) (ds extra : List Char)
        (fr : Option (Char × Char)),
      t.notes = some n →
      n.data = (("cash paid: $").data) ++ ds ++ fracChars fr ++ (((")")).data) ++ extra →
      (∀ x ∈ ds, x.isDigit = true) → ds ≠ [] → fracDigitsOk fr = true →
      ¬ ('r') ∈ extra →
      cashoutContribution t = amountVal ds fr) ∧
    (∀ (t : PlayerTransaction) (n : String), t.notes = some n →
      parseReceivedCash n.data = none → parseCashPaid n.data = none →
      cashoutContribution t = t.amount) ∧
    (∀ t : PlayerTransaction, t.notes = none → cashoutContribution t = t.amount) := by
  refine ⟨cashCashouts_eq_sum, ?_, ?_, ?_, ?_⟩
  · intro t n ds extra fr hnotes hshape hds hne hfr
    have hm : parseReceivedCash n.data = some (amountVal ds fr) := by
      rw [hshape]
      exact scanFor_eq_of_tryAt
        (tryAt_match (("received $").data) (' ') (("cash").data) ds extra fr hds hne hfr
          (by decide) (by decide))
    simp [cashoutContribution, hnotes, hm]
  · intro t n ds extra fr hnotes hshape hds hne hfr hextra
    have hnor : parseReceivedCash n.data = none := by
      rw [hshape]
      refine scanFor_none_of_head_notMem fun hmem => ?_
      simp only [List.mem_append] at hmem
      rcases hmem with ((((hl | hd) | hf) | hp) | he)
      · revert hl; decide
      · have := hds _ hd; revert this; decide
      · cases fr with
        | none => simp [fracChars] at hf
        | some p =>
          rcases p with ⟨a, b⟩
          have ha := hfr
          simp only [fracDigitsOk, Bool.and_eq_true] at ha
          simp only [fracChars, List.mem_cons] at hf
          rcases hf with h1 | h1 | h1 | h1
          · cases h1
          · rw [← h1] at ha; exact absurd ha.1 (by decide)
          · rw [← h1] at ha; exact absurd ha.2 (by decide)
          · simp at h1
      · revert hp; decide
      · exact hextra he
    have hm : parseCashPaid n.data = some (amountVal ds fr) := by
      rw [hshape]
      exact scanFor_eq_of_tryAt
        (tryAt_match (("cash paid: $").data) (')') [] ds extra fr hds hne hfr
          (by decide) (by decide))
    simp [cashoutContribution, hnotes, hnor, hm]
  · intro t n hnotes h1 h2
    simp [cashoutContribution, hnotes, h1, h2]
  · intro t hnotes
    simp [cashoutContribution, hnotes]

/-- The concrete cash cashout refuting C3 as stated: its note carries the
actual-cash pattern with the one-fraction-digit amount `1.5` — a
"non-negative decimal with up to two fraction digits" — yet the endpoint
contributes the nominal 300, not 1.5: the code's patterns accept exactly
zero or exactly two fraction digits. -/
def oneFracDigitCashout : PlayerTransaction :=
  { id := "t1", playerName := "P", type := TxType.cashout, amount := 300,
    paymentMethod := PayMethod.cash, notes := some ("received $1.5 cash"),
    isPaid := true }

/-- C3 counterexample: a note of the claimed pattern shape whose amount has
one fraction digit is not parsed; the nominal amount is contributed instead
of the note's 1.5. -/
theorem c3_refuted :
    oneFracDigitCashout.type = TxType.cashout ∧
    oneFracDigitCashout.paymentMethod = PayMethod.cash ∧
    oneFracDigitCashout.notes = some ("received $1.5 cash") ∧
    (("received $1.5 cash").data =
      (("received $").data) ++ ['1'] ++ ['.', '5'] ++ ((" cash").data)) ∧
    ('1'.isDigit = true ∧ '5'.isDigit = true ∧ (['.', '5'].length : Nat) ≤ 2) ∧
    cashoutContribution oneFracDigitCashout = 300 ∧
    (1 + 5 / 10 : Rat) ≠ 300 := by
  have hrc : parseReceivedCash (("received $1.5 cash").data) = none := by decide
  have hcp : parseCashPaid (("received $1.5 cash").data) = none := by decide
  refine ⟨rfl, rfl, rfl, by decide, ⟨by decide, by decide, by decide⟩, ?_, by norm_num⟩
  simp [cashoutContribution, oneFracDigitCashout, hrc, hcp]

/-! ## C7: the per-player credit balance

The endpoint folds the transactions into an insertion-ordered map and sums
`max 0 (buyIns − cashouts)` over its entries; the theorem re-expresses this
as a sum over the set of credit players of their clamped net debt. -/

def keysOf (m : List (String × Rat × Rat)) : List String := m.map fun e => e.1

/-- Accumulated unpaid-buy-in component of a player's map entry (0 when absent). -/
def valB (m : List (String × Rat × Rat)) (p : String) : Rat :=
  ((lookupA p m).getD (0, 0)).1

/-- Accumulated cashout component of a player's map entry (0 when absent). -/
def valC (m : List (String × Rat × Rat)) (p : String) : Rat :=
  ((lookupA p m).getD (0, 0)).2

def entriesSum (m : List (String × Rat × Rat)) : Rat :=
  (m.map fun e => max 0 (e.2.1 - e.2.2)).sum

theorem lookupA_setA_self (p : String) (v : Rat × Rat) (m : List (String × Rat × Rat)) :
    lookupA p (setA p v m) = some v := by
  induction m with
  | nil => simp [setA, lookupA]
  | cons e rest ih =>
    rcases e with ⟨q, w⟩
    by_cases hq : q = p
    · simp [setA, lookupA, hq]
    · simp [setA, lookupA, hq, ih]

theorem lookupA_setA_ne (p q : String) (v : Rat × Rat) (m : List (String × Rat × Rat))
    (h : q ≠ p) : lookupA q (setA p v m) = lookupA q m := by
  have hpq : ¬ p = q := fun hh => h hh.symm
  induction m with
  | nil => simp [setA, lookupA, hpq]
  | cons e rest ih =>
    rcases e with ⟨q', w⟩
    by_cases hq : q' = p
    · subst hq
      simp [setA, lookupA, hpq]
    · simp [setA, lookupA, hq, ih]

theorem keysOf_setA (p : String) (v : Rat × Rat) (m : List (String × Rat × Rat)) :
    keysOf (setA p v m) = if p ∈ keysOf m then keysOf m else keysOf m ++ [p] := by
  induction m with
  | nil => simp [setA, keysOf]
  | cons e rest ih =>
    rcases e with ⟨q, w⟩
    by_cases hq : q = p
    · simp [setA, keysOf, hq]
    · have hne : ¬ p = q := fun hh => hq hh.symm
      by_cases hmem : p ∈ keysOf rest
      · simp only [setA, if_neg hq, keysOf, List.map_cons] at *
        simp [hmem, hne, ih]
      · simp only [setA, if_neg hq, keysOf, List.map_cons] at *
        simp [hmem, hne, ih]

theorem nodup_keysOf_setA (p : String) (v : Rat × Rat) (m : List (String × Rat × Rat))
    (h : (keysOf m).Nodup) : (keysOf (setA p v m)).Nodup := by
  rw [keysOf_setA]
  by_cases hmem : p ∈ keysOf m
  · simpa [hmem] using h
  · simpa [hmem] using List.Nodup.append h (List.nodup_singleton p) (by simpa using hmem)

theorem toFinset_keysOf_setA (p : String) (v : Rat × Rat)
    (m : List (String × Rat × Rat)) :
    (keysOf (setA p v m)).toFinset = insert p (keysOf m).toFinset := by
  rw [keysOf_setA]
  by_cases hmem : p ∈ keysOf m
  · rw [if_pos hmem, Finset.insert_eq_self.mpr (List.mem_toFinset.mpr hmem)]
  · rw [if_neg hmem]
    ext q
    simp [or_comm]

theorem entriesSum_eq_finset (m : List (String × Rat × Rat))
    (h : (keysOf m).Nodup) :
    entriesSum m = ∑ p ∈ (keysOf m).toFinset, max 0 (valB m p - valC m p) := by
  induction m with
  | nil => simp [entriesSum, keysOf]
  | cons e rest ih =>
    rcases e with ⟨q, bc⟩
    have hnd : q ∉ keysOf rest ∧ (keysOf rest).Nodup := by
      simpa [keysOf] using h
    have hq : q ∉ (keysOf rest).toFinset := by
      simpa using hnd.1
    have hsum : (keysOf ((q, bc) :: rest)).toFinset = insert q (keysOf rest).toFinset := by
      simp [keysOf]
    rw [hsum, Finset.sum_insert hq]
    have hval : ∀ p ∈ (keysOf rest).toFinset,
        max 0 (valB ((q, bc) :: rest) p - valC ((q, bc) :: rest) p) =
          max 0 (valB rest p - valC rest p) := by
      intro p hp
      have hpq : ¬ q = p := fun hh => hnd.1 (by rw [hh]; exact List.mem_toFinset.mp hp)
      simp [valB, valC, lookupA, hpq]
    rw [Finset.sum_congr rfl hval, ← ih hnd.2]
    simp [valB, valC, lookupA, entriesSum]

/-- Unpaid-buy-in increment a transaction makes to its player's entry. -/
def buyDelta (t : PlayerTransaction) : Rat :=
  if t.type = TxType.buyIn ∧ t.isPaid = false then t.amount else 0

/-- Cashout increment a transaction makes to its player's entry. -/
def cashDelta (t : PlayerTransaction) : Rat :=
  if t.type = TxType.cashout then t.amount else 0

theorem creditStep_not_credit (m : List (String × Rat × Rat)) (t : PlayerTransaction)
    (h : ¬ t.paymentMethod = PayMethod.credit) : creditStep m t = m := by
  simp [creditStep, h]

theorem creditStep_credit (m : List (String × Rat × Rat)) (t : PlayerTransaction)
    (h : t.paymentMethod = PayMethod.credit) :
    creditStep m t =
      setA t.playerName
        (valB m t.playerName + buyDelta t, valC m t.playerName + cashDelta t) m := by
  cases hty : t.type with
  | buyIn =>
    cases hp : t.isPaid with
    | false => simp [creditStep, h, hty, hp, buyDelta, cashDelta, valB, valC]
    | true => simp [creditStep, h, hty, hp, buyDelta, cashDelta, valB, valC]
  | cashout => simp [creditStep, h, hty, buyDelta, cashDelta, valB, valC]

theorem valB_setA_self (m : List (String × Rat × Rat)) (p : String) (v : Rat × Rat) :
    valB (setA p v m) p = v.1 := by
  simp [valB, lookupA_setA_self]

theorem valC_setA_self (m : List (String × Rat × Rat)) (p : String) (v : Rat × Rat) :
    valC (setA p v m) p = v.2 := by
  simp [valC, lookupA_setA_self]

theorem valB_setA_ne (p q : String) (v : Rat × Rat) (m : List (String × Rat × Rat))
    (h : q ≠ p) : valB (setA p v m) q = valB m q := by
  simp [valB, lookupA_setA_ne p q v m h]

theorem valC_setA_ne (p q : String) (v : Rat × Rat) (m : List (String × Rat × Rat))
    (h : q ≠ p) : valC (setA p v m) q = valC m q := by
  simp [valC, lookupA_setA_ne p q v m h]

theorem specUnpaid_cons (p : String) (t : PlayerTransaction)
    (rest : List PlayerTransaction) :
    specUnpaidCreditBuyIns p (t :: rest) =
      (if t.playerName = p ∧ t.paymentMethod = PayMethod.credit ∧
          t.type = TxType.buyIn ∧ t.isPaid = false then t.amount else 0) +
        specUnpaidCreditBuyIns p rest := by
  by_cases hc : t.playerName = p ∧ t.paymentMethod = PayMethod.credit ∧
      t.type = TxType.buyIn ∧ t.isPaid = false
  · simp [specUnpaidCreditBuyIns, sumOf, List.filter_cons, hc]
  · simp [specUnpaidCreditBuyIns, sumOf, List.filter_cons, hc]

theorem specCashouts_cons (p : String) (t : PlayerTransaction)
    (rest : List PlayerTransaction) :
    specCreditCashouts p (t :: rest) =
      (if t.playerName = p ∧ t.paymentMethod = PayMethod.credit ∧
          t.type = TxType.cashout then t.amount else 0) +
        specCreditCashouts p rest := by
  by_cases hc : t.playerName = p ∧ t.paymentMethod = PayMethod.credit ∧
      t.type = TxType.cashout
  · simp [specCreditCashouts, sumOf, List.filter_cons, hc]
  · simp [specCreditCashouts, sumOf, List.filter_cons, hc]

theorem creditPlayers_cons (t : PlayerTransaction) (rest : List PlayerTransaction) :
    creditPlayers (t :: rest) =
      if t.paymentMethod = PayMethod.credit then t.playerName :: creditPlayers rest
      else creditPlayers rest := by
  by_cases hc : t.paymentMethod = PayMethod.credit
  · simp [creditPlayers, List.filter_cons, hc]
  · simp [creditPlayers, List.filter_cons, hc]

theorem creditFold_sum (txs : List PlayerTransaction) :
    ∀ m : List (String × Rat × Rat), (keysOf m).Nodup →
      entriesSum (txs.foldl creditStep m) =
        ∑ p ∈ (keysOf m).toFinset ∪ (creditPlayers txs).toFinset,
          max 0 ((valB m p + specUnpaidCreditBuyIns p txs) -
            (valC m p + specCreditCashouts p txs)) := by
  induction txs with
  | nil =>
    intro m hm
    simp only [List.foldl_nil, creditPlayers, List.filter_nil, List.map_nil,
      List.toFinset_nil, Finset.union_empty, specUnpaidCreditBuyIns,
      specCreditCashouts, sumOf, List.sum_nil, add_zero]
    exact entriesSum_eq_finset m hm
  | cons t rest ih =>
    intro m hm
    by_cases hcr : t.paymentMethod = PayMethod.credit
    · have hstep := creditStep_credit m t hcr
      have hm' : (keysOf (setA t.playerName
          (valB m t.playerName + buyDelta t, valC m t.playerName + cashDelta t)
          m)).Nodup :=
        nodup_keysOf_setA _ _ m hm
      rw [List.foldl_cons, hstep, ih _ hm']
      have hsets : (keysOf (setA t.playerName
            (valB m t.playerName + buyDelta t, valC m t.playerName + cashDelta t)
            m)).toFinset ∪ (creditPlayers rest).toFinset =
          (keysOf m).toFinset ∪ (creditPlayers (t :: rest)).toFinset := by
        rw [toFinset_keysOf_setA, creditPlayers_cons, if_pos hcr]
        simp only [List.toFinset_cons]
        rw [Finset.insert_union, Finset.union_insert]
      rw [hsets]
      refine Finset.sum_congr rfl fun p hp => ?_
      by_cases hpp : p = t.playerName
      · rw [hpp, valB_setA_self, valC_setA_self, specUnpaid_cons, specCashouts_cons]
        have hbd : (if t.playerName = t.playerName ∧ t.paymentMethod = PayMethod.credit ∧
            t.type = TxType.buyIn ∧ t.isPaid = false then t.amount else 0) = buyDelta t := by
          simp [buyDelta, hcr]
        have hcd2 : (if t.playerName = t.playerName ∧ t.paymentMethod = PayMethod.credit ∧
            t.type = TxType.cashout then t.amount else 0) = cashDelta t := by
          simp [cashDelta, hcr]
        rw [hbd, hcd2]
        congr 1
        ring
      · rw [valB_setA_ne _ _ _ m hpp, valC_setA_ne _ _ _ m hpp,
          specUnpaid_cons, specCashouts_cons]
        have hpn : ¬ t.playerName = p := fun hh => hpp hh.symm
        simp [hpn]
    · rw [List.foldl_cons, creditStep_not_credit m t hcr, ih m hm,
        creditPlayers_cons, if_neg hcr]
      refine Finset.sum_congr rfl fun p hp => ?_
      rw [specUnpaid_cons, specCashouts_cons]
      simp [hcr]

theorem creditBalance_eq_entriesSum (txs : List PlayerTransaction) :
    creditBalance txs = entriesSum (playerCreditMap txs) := by
  simp [creditBalance, entriesSum, foldl_add_eq]

/-- C7: the summary's `creditBalance` groups credit-method transactions by
player and sums each player's clamped net unpaid credit, so it is nonnegative
and only players with net-positive unpaid credit contribute. -/
theorem creditBalance_per_player (txs : List PlayerTransaction) :
    creditBalance txs =
      ∑ p ∈ (creditPlayers txs).toFinset,
        max 0 (specUnpaidCreditBuyIns p txs - specCreditCashouts p txs) ∧
    0 ≤ creditBalance txs := by
  have h := creditFold_sum txs [] (by simp [keysOf])
  have hmain : creditBalance txs =
      ∑ p ∈ (creditPlayers txs).toFinset,
        max 0 (specUnpaidCreditBuyIns p txs - specCreditCashouts p txs) := by
    rw [creditBalance_eq_entriesSum, playerCreditMap, h]
    simp [keysOf, valB, valC, lookupA]
  exact ⟨hmain, hmain ▸ Finset.sum_nonneg fun p hp => le_max_left 0 _⟩

/-! ## C8: sessions with no events

`netProfit` falls back to the session-level lump-sum rake, which is session
state rather than an event, so an event-free session can still report a
nonzero net profit. -/

def rakeOnlySession : GameSession := { id := "s-rake", totalRake := 100 }

/-- C8 counterexample: a session with no transactions, no dealer-downs and no
expenses but a positive lump-sum `totalRake` (loggable without any events)
reports `netProfit = 100 ≠ 0`. -/
theorem c8_refuted :
    (computeSummary rakeOnlySession [] [] []).netProfit = 100 ∧ ((100 : Rat) ≠ 0) := by
  constructor
  · show totalRakeOf rakeOnlySession [] - totalExpensesOf [] = 100
    norm_num [totalRakeOf, totalExpensesOf, rakeOnlySession]
  · norm_num

/-- C8 (amended): for every session with no transactions, no dealer-downs, no
expenses and a zero lump-sum `totalRake`, the summary reports
`tillBalance = netProfit = creditBalance = 0` and `playerCount = 0`. -/
theorem summary_of_empty_session (session : GameSession) (h : session.totalRake = 0) :
    (computeSummary session [] [] []).tillBalance = 0 ∧
    (computeSummary session [] [] []).netProfit = 0 ∧
    (computeSummary session [] [] []).creditBalance = 0 ∧
    (computeSummary session [] [] []).playerCount = 0 := by
  refine ⟨?_, ?_, ?_, ?_⟩ <;>
    norm_num [computeSummary, tillBalance, cashBuyIns, manuallyPaidCredit,
      paidCreditBuyIns, autoSettledCredit, cashCashouts, totalPaidTips,
      totalExpensesOf, totalRakeOf, h, creditBalance, playerCreditMap,
      playerCount]

def emptySession : GameSession := { id := "s-empty", totalRake := 0 }

/-- C8 witness: the amended statement at a concrete empty session. -/
theorem summary_of_empty_session_witness :
    (computeSummary emptySession [] [] []).tillBalance = 0 ∧
    (computeSummary emptySession [] [] []).netProfit = 0 ∧
    (computeSummary emptySession [] [] []).creditBalance = 0 ∧
    (computeSummary emptySession [] [] []).playerCount = 0 :=
  summary_of_empty_session emptySession rfl

/-! ## The discrepancy analyzer's normalization of collaborator output

The collaborator's reply is `JSON.parse`d and then defensively coerced.  A
parsed-JSON value is modelled by `JsonVal` (numbers as exact rationals: a
JSON numeral denotes a decimal).  JavaScript property access on `null`
throws, so the normalization is a partial function, modelled in `Except`;
the route's try/catch turns any such throw into an analysis failure. -/

inductive JsonVal where
  | null
  | bool (b : Bool)
  | num (q : Rat)
  | str (s : String)
  | arr (elems : List JsonVal)
  | obj (fields : List (String × JsonVal))

/-- Object field lookup; `JSON.parse` keeps the last duplicate key. -/
def jsLookup (k : String) : List (String × JsonVal) → Option JsonVal
  | [] => none
  | (q, v) :: rest =>
    match jsLookup k rest with
    | some w => some w
    | none => if q = k then some v else none

/-- Property access `v[k]`: `null` has no properties (TypeError), objects
look the key up, and every other JSON value yields `undefined`. -/
def jsGet (v : JsonVal) (k : String) : Except Unit (Option JsonVal) :=
  match v with
  | .null => .error ()
  | .obj fs => .ok (jsLookup k fs)
  | _ => .ok none

/-- JS truthiness of a possibly-absent value (`undefined`, `null`, `false`,
`0`, `""` are falsy; arrays and objects, even empty, are truthy). -/
def jsTruthy : Option JsonVal → Bool
  | none => false
  | some .null => false
  | some (.bool b) => b
  | some (.num q) => decide (q ≠ 0)
  | some (.str s) => !s.isEmpty
  | some (.arr _) => true
  | some (.obj _) => true

/-- `x || d`: the value when truthy, the default otherwise. -/
def jsOr (v : Option JsonVal) (d : JsonVal) : JsonVal :=
  if jsTruthy v then v.getD d else d

/-- Least number of decimal digits that makes the denominator integral. -/
def pow10Mult (den : Nat) : Option Nat :=
  (List.range 400).find? fun k => den ∣ 10 ^ k

/-- Digits of `n` with a decimal point `k` places from the right. -/
def renderDecimal (n k : Nat) : String :=
  let ds := (toString n).data
  let padded := List.replicate (k + 1 - ds.length) ('0') ++ ds
  String.mk (padded.take (padded.length - k)) ++ "." ++
    String.mk (padded.drop (padded.length - k))

/-- `String(number)` for the exact decimals JSON numerals denote: integers
without a point, other finitely-representable rationals as the shortest
decimal (the fallback arm is unreachable for such values). -/
def jsNumToString (q : Rat) : String :=
  if q.den = 1 then toString q.num
  else
    match pow10Mult q.den with
    | some k =>
      (if q < 0 then "-" else "") ++ renderDecimal (q.num.natAbs * (10 ^ k / q.den)) k
    | none => toString q.num ++ "/" ++ toString q.den

mutual

/-- `String(v)`: JS string coercion of a parsed-JSON value. -/
def jsToString : JsonVal → String
  | .null => "null"
  | .bool b => cond b ("true") ("false")
  | .num q => jsNumToString q
  | .str s => s
  | .arr l => jsToStringList l
  | .obj _ => "[object Object]"

/-- `Array.prototype.toString`: elements joined by commas, `null` as empty. -/
def jsToStringList : List JsonVal → String
  | [] => ""
  | [e] => jsToStringElem e
  | e :: rest => jsToStringElem e ++ "," ++ jsToStringList rest

def jsToStringElem : JsonVal → String
  | .null => ""
  | v => jsToString v

end

/-- Normalized cause entry; `transactionIds` is kept raw when an array, as
the route does. -/
structure TillAnalysisCause where
  description : String
  likelihood : String
  amount : Option Rat
  transactionIds : Option (List JsonVal)

structure TransactionToReview where
  id : String
  playerName : String
  type : String
  amount : Rat
  paymentMethod : String
  notes : Option JsonVal
  reason : String

structure AnalyzeTillResponse where
  discrepancyAmount : Rat
  expectedTill : Rat
  actualTill : Rat
  summary : String
  possibleCauses : List TillAnalysisCause
  transactionsToReview : List TransactionToReview
  recommendations : List String

/-- Field-by-field coercion of one cause object: string fields default
through `|| ""`, an out-of-range likelihood becomes `medium`, a non-number
amount becomes absent, a non-array id list becomes absent. -/
def mkCause (desc lik amt tids : Option JsonVal) : TillAnalysisCause :=
  { description := jsToString (jsOr desc (.str ""))
    likelihood :=
      match lik with
      | some (.str s) =>
        if s = "high" ∨ s = "medium" ∨ s = "low" then s else "medium"
      | _ => "medium"
    amount := match amt with | some (.num q) => some q | _ => none
    transactionIds := match tids with | some (.arr l) => some l | _ => none }

def normCause (c : JsonVal) : Except Unit TillAnalysisCause := do
  let desc ← jsGet c ("description")
  let lik ← jsGet c ("likelihood")
  let amt ← jsGet c ("amount")
  let tids ← jsGet c ("transactionIds")
  pure (mkCause desc lik amt tids)

/-- Field-by-field coercion of one transaction-to-review object:
`playerName` defaults to `Unknown`, a non-number amount becomes 0, falsy
notes become null. -/
def mkReview (idF pn ty amt pm nt rs : Option JsonVal) : TransactionToReview :=
  { id := jsToString (jsOr idF (.str ""))
    playerName := jsToString (jsOr pn (.str "Unknown"))
    type := jsToString (jsOr ty (.str ""))
    amount := match amt with | some (.num q) => q | _ => 0
    paymentMethod := jsToString (jsOr pm (.str ""))
    notes := if jsTruthy nt then nt else none
    reason := jsToString (jsOr rs (.str "")) }

def normReview (t : JsonVal) : Except Unit TransactionToReview := do
  let idF ← jsGet t ("id")
  let pn ← jsGet t ("playerName")
  let ty ← jsGet t ("type")
  let amt ← jsGet t ("amount")
  let pm ← jsGet t ("paymentMethod")
  let nt ← jsGet t ("notes")
  let rs ← jsGet t ("reason")
  pure (mkReview idF pn ty amt pm nt rs)

/-- Elementwise effectful map (`Array.prototype.map` with a throwing body). -/
def mapME {α : Type} (f : JsonVal → Except Unit α) : List JsonVal → Except Unit (List α)
  | [] => .ok []
  | e :: rest =>
    match f e, mapME f rest with
    | .ok b, .ok bs => .ok (b :: bs)
    | .error u, _ => .error u
    | _, .error u => .error u

/-- `(x || []).map(f)`: a falsy field maps over the empty array; a truthy
non-array has no callable `.map` (TypeError). -/
def mapArray {α : Type} (v : Option JsonVal) (f : JsonVal → Except Unit α) :
    Except Unit (List α) :=
  match jsOr v (.arr []) with
  | .arr l => mapME f l
  | _ => .error ()

def normPossibleCauses (ai : JsonVal) : Except Unit (List TillAnalysisCause) := do
  let f ← jsGet ai ("possibleCauses")
  mapArray f normCause

def normTransactionsToReview (ai : JsonVal) : Except Unit (List TransactionToReview) := do
  let f ← jsGet ai ("transactionsToReview")
  mapArray f normReview

def defaultRecommendations : List String :=
  ["Review all transactions for accuracy", "Double-check cash counts"]

/-- `Array.isArray(r) ? r.map(String) : defaults`: a missing or non-array
recommendations field becomes the fixed two-element default list. -/
def normRecommendations (ai : JsonVal) : Except Unit (List String) := do
  let f ← jsGet ai ("recommendations")
  match f with
  | some (.arr l) => pure (l.map jsToString)
  | _ => pure defaultRecommendations

/-- `toFixed(2)` of a nonnegative amount: round half-up to cents, two
fraction digits (exact on cent-multiples, which is all the code passes). -/
def toFixed2 (q : Rat) : String :=
  let cents := (q * 100 + 1 / 2).floor.natAbs
  toString (cents / 100) ++ "." ++
    (if cents % 100 < 10 then "0" else "") ++ toString (cents % 100)

/-- The template-literal fallback summary for a discrepancy `d`. -/
def fallbackSummary (d : Rat) : String :=
  "Till is " ++ (if d > 0 then "over" else "short") ++ " by $" ++ toFixed2 |d|

def normSummary (ai : JsonVal) (d : Rat) : Except Unit String := do
  let f ← jsGet ai ("summary")
  pure (jsToString (jsOr f (.str (fallbackSummary d))))

/-- Whether the analyzer reaches the external call: only when the
discrepancy is material (at least one currency unit in absolute value). -/
def invokesCollaborator (txs : List PlayerTransaction) (downs : List DealerDown)
    (exps : List Expense) (actualTillAmount : Rat) : Bool :=
  !(decide (|actualTillAmount - expectedTill txs downs exps| < 1))

/-- The analyze-till endpoint given the session's events, the reported
count, and the collaborator's parsed JSON reply: short-circuits below the
materiality threshold, otherwise normalizes the reply around the locally
computed figures. -/
def analyzeTill (txs : List PlayerTransaction) (downs : List DealerDown)
    (exps : List Expense) (actualTillAmount : Rat) (aiResponse : JsonVal) :
    Except Unit AnalyzeTillResponse :=
  if |actualTillAmount - expectedTill txs downs exps| < 1 then
    .ok
      { discrepancyAmount := 0
        expectedTill := expectedTill txs downs exps
        actualTill := actualTillAmount
        summary := "Your till matches the expected amount. No discrepancy detected."
        possibleCauses := []
        transactionsToReview := []
        recommendations := ["Your records appear to be accurate. Keep up the good work!"] }
  else
    match normPossibleCauses aiResponse, normTransactionsToReview aiResponse,
        normRecommendations aiResponse,
        normSummary aiResponse (actualTillAmount - expectedTill txs downs exps) with
    | .ok pc, .ok tr, .ok recs, .ok summ =>
      .ok
        { discrepancyAmount := actualTillAmount - expectedTill txs downs exps
          expectedTill := expectedTill txs downs exps
          actualTill := actualTillAmount
          summary := summ
          possibleCauses := pc
          transactionsToReview := tr
          recommendations := recs }
    | _, _, _, _ => .error ()

/-! ## C5: the materiality short-circuit -/

/-- C5: when the reported count is within one currency unit of the expected
till, the analyzer returns the fixed zero-discrepancy result with empty
causes and review lists and a single affirming recommendation — whatever the
collaborator would have replied — and the external collaborator is not
invoked. -/
theorem analyzeTill_short_circuit (txs : List PlayerTransaction)
    (downs : List DealerDown) (exps : List Expense) (actual : Rat) (ai : JsonVal)
    (h : |actual - expectedTill txs downs exps| < 1) :
    analyzeTill txs downs exps actual ai =
      .ok
        { discrepancyAmount := 0
          expectedTill := expectedTill txs downs exps
          actualTill := actual
          summary := "Your till matches the expected amount. No discrepancy detected."
          possibleCauses := []
          transactionsToReview := []
          recommendations :=
            ["Your records appear to be accurate. Keep up the good work!"] } ∧
    invokesCollaborator txs downs exps actual = false := by
  constructor
  · rw [analyzeTill, if_pos h]
  · simp [invokesCollaborator, h]

theorem expectedTill_nil : expectedTill [] [] [] = 0 := by
  norm_num [expectedTill, cashBuyIns, manuallyPaidCredit, paidCreditBuyIns,
    autoSettledCredit, cashCashouts, totalPaidTips, totalClaimedRake, totalExpensesOf]

/-- C5 witness: an event-free session with a matching count of 0. -/
theorem analyzeTill_short_circuit_witness :
    analyzeTill [] [] [] 0 (JsonVal.obj []) =
      .ok
        { discrepancyAmount := 0
          expectedTill := expectedTill [] [] []
          actualTill := 0
          summary := "Your till matches the expected amount. No discrepancy detected."
          possibleCauses := []
          transactionsToReview := []
          recommendations :=
            ["Your records appear to be accurate. Keep up the good work!"] } ∧
    invokesCollaborator [] [] [] 0 = false :=
  analyzeTill_short_circuit [] [] [] 0 (JsonVal.obj [])
    (by rw [expectedTill_nil]; norm_num)

/-! ## C10: the analyzer's figures are locally determined -/

theorem analyzeTill_ok_fields (txs : List PlayerTransaction) (downs : List DealerDown)
    (exps : List Expense) (actual : Rat) (ai : JsonVal) (r : AnalyzeTillResponse)
    (hmat : 1 ≤ |actual - expectedTill txs downs exps|)
    (h : analyzeTill txs downs exps actual ai = .ok r) :
    r.discrepancyAmount = actual - expectedTill txs downs exps ∧
    r.expectedTill = expectedTill txs downs exps ∧
    r.actualTill = actual := by
  rw [analyzeTill, if_neg (not_lt.mpr hmat)] at h
  cases h1 : normPossibleCauses ai with
  | error u => rw [h1] at h; exact absurd h (by simp)
  | ok pc =>
    cases h2 : normTransactionsToReview ai with
    | error u => rw [h1, h2] at h; exact absurd h (by simp)
    | ok tr =>
      cases h3 : normRecommendations ai with
      | error u => rw [h1, h2, h3] at h; exact absurd h (by simp)
      | ok recs =>
        cases h4 : normSummary ai (actual - expectedTill txs downs exps) with
        | error u => rw [h1, h2, h3, h4] at h; exact absurd h (by simp)
        | ok summ =>
          rw [h1, h2, h3, h4] at h
          have hr := (Except.ok.injEq _ _).mp h
          rw [← hr]
          exact ⟨rfl, rfl, rfl⟩

/-- C10: with a material discrepancy, any two successful runs over the same
session and reported count — whatever the two collaborator replies — agree
on `discrepancyAmount`, `expectedTill` and `actualTill`, which equal the
locally computed figures; the collaborator can only influence the textual
summary, causes, review list and recommendations. -/
theorem analyzeTill_numbers_independent (txs : List PlayerTransaction)
    (downs : List DealerDown) (exps : List Expense) (actual : Rat)
    (ai1 ai2 : JsonVal) (r1 r2 : AnalyzeTillResponse)
    (hmat : 1 ≤ |actual - expectedTill txs downs exps|)
    (h1 : analyzeTill txs downs exps actual ai1 = .ok r1)
    (h2 : analyzeTill txs downs exps actual ai2 = .ok r2) :
    r1.discrepancyAmount = r2.discrepancyAmount ∧
    r1.expectedTill = r2.expectedTill ∧
    r1.actualTill = r2.actualTill ∧
    r1.discrepancyAmount = actual - expectedTill txs downs exps ∧
    r1.expectedTill = expectedTill txs downs exps ∧
    r1.actualTill = actual := by
  obtain ⟨a1, b1, c1⟩ := analyzeTill_ok_fields txs downs exps actual ai1 r1 hmat h1
  obtain ⟨a2, b2, c2⟩ := analyzeTill_ok_fields txs downs exps actual ai2 r2 hmat h2
  exact ⟨a1.trans a2.symm, b1.trans b2.symm, c1.trans c2.symm, a1, b1, c1⟩

theorem except_bind_ok {α β : Type} (a : α) (f : α → Except Unit β) :
    (Except.ok a >>= f : Except Unit β) = f a := rfl

theorem except_bind_error {α β : Type} (u : Unit) (f : α → Except Unit β) :
    ((Except.error u : Except Unit α) >>= f : Except Unit β) = Except.error u := rfl

theorem except_pure_eq {α : Type} (a : α) : (pure a : Except Unit α) = Except.ok a := rfl

def aiReplyA : JsonVal := JsonVal.obj [("summary", JsonVal.str ("till looks short"))]

def aiReplyB : JsonVal := JsonVal.obj [("summary", JsonVal.str ("check the tips"))]

def respA : AnalyzeTillResponse :=
  { discrepancyAmount := 50 - expectedTill [] [] []
    expectedTill := expectedTill [] [] []
    actualTill := 50
    summary := "till looks short"
    possibleCauses := []
    transactionsToReview := []
    recommendations := defaultRecommendations }

def respB : AnalyzeTillResponse :=
  { discrepancyAmount := 50 - expectedTill [] [] []
    expectedTill := expectedTill [] [] []
    actualTill := 50
    summary := "check the tips"
    possibleCauses := []
    transactionsToReview := []
    recommendations := defaultRecommendations }

theorem c10_mat : (1 : Rat) ≤ |50 - expectedTill [] [] []| := by
  rw [expectedTill_nil, sub_zero, abs_of_pos (by norm_num : (0 : Rat) < 50)]
  norm_num

theorem c10_runA : analyzeTill [] [] [] 50 aiReplyA = .ok respA := by
  rw [analyzeTill, if_neg (not_lt.mpr c10_mat)]
  have h1 : normPossibleCauses aiReplyA = .ok [] := by
    simp [normPossibleCauses, aiReplyA, jsGet, jsLookup, except_bind_ok, mapArray,
      jsOr, jsTruthy, mapME]
  have h2 : normTransactionsToReview aiReplyA = .ok [] := by
    simp [normTransactionsToReview, aiReplyA, jsGet, jsLookup, except_bind_ok,
      mapArray, jsOr, jsTruthy, mapME]
  have h3 : normRecommendations aiReplyA = .ok defaultRecommendations := by
    simp [normRecommendations, aiReplyA, jsGet, jsLookup, except_bind_ok,
      except_pure_eq]
  have h4 : normSummary aiReplyA (50 - expectedTill [] [] []) =
      .ok ("till looks short") := by
    have ht : jsTruthy (some (JsonVal.str ("till looks short"))) = true := by decide
    simp [normSummary, aiReplyA, jsGet, jsLookup, except_bind_ok, except_pure_eq,
      jsOr, ht, jsToString]
  rw [h1, h2, h3, h4]
  rfl

theorem c10_runB : analyzeTill [] [] [] 50 aiReplyB = .ok respB := by
  rw [analyzeTill, if_neg (not_lt.mpr c10_mat)]
  have h1 : normPossibleCauses aiReplyB = .ok [] := by
    simp [normPossibleCauses, aiReplyB, jsGet, jsLookup, except_bind_ok, mapArray,
      jsOr, jsTruthy, mapME]
  have h2 : normTransactionsToReview aiReplyB = .ok [] := by
    simp [normTransactionsToReview, aiReplyB, jsGet, jsLookup, except_bind_ok,
      mapArray, jsOr, jsTruthy, mapME]
  have h3 : normRecommendations aiReplyB = .ok defaultRecommendations := by
    simp [normRecommendations, aiReplyB, jsGet, jsLookup, except_bind_ok,
      except_pure_eq]
  have h4 : normSummary aiReplyB (50 - expectedTill [] [] []) =
      .ok ("check the tips") := by
    have ht : jsTruthy (some (JsonVal.str ("check the tips"))) = true := by decide
    simp [normSummary, aiReplyB, jsGet, jsLookup, except_bind_ok, except_pure_eq,
      jsOr, ht, jsToString]
  rw [h1, h2, h3, h4]
  rfl

/-- C10 witness: two runs with different collaborator replies at a concrete
material discrepancy. -/
theorem analyzeTill_numbers_independent_witness :
    respA.discrepancyAmount = respB.discrepancyAmount ∧
    respA.expectedTill = respB.expectedTill ∧
    respA.actualTill = respB.actualTill ∧
    respA.discrepancyAmount = 50 - expectedTill [] [] [] ∧
    respA.expectedTill = expectedTill [] [] [] ∧
    respA.actualTill = 50 :=
  analyzeTill_numbers_independent [] [] [] 50 aiReplyA aiReplyB respA respB
    c10_mat c10_runA c10_runB

/-! ## C6: defensive normalization of the collaborator's reply -/

def notNull : JsonVal → Bool
  | .null => false
  | _ => true

/-- A mapped array field that cannot make the `(x || []).map` pass throw:
falsy, or an array of non-null elements. -/
def arrFieldOk (f : Option JsonVal) : Bool :=
  if jsTruthy f then
    match f with
    | some (.arr l) => l.all notNull
    | _ => false
  else true

/-- Collaborator replies on which the normalization cannot throw. -/
def normShapeOk : JsonVal → Bool
  | .null => false
  | .obj fs =>
    arrFieldOk (jsLookup ("possibleCauses") fs) &&
      arrFieldOk (jsLookup ("transactionsToReview") fs)
  | _ => true

/-- Field of a non-null value, as the normalization reads it. -/
def jsField (v : JsonVal) (k : String) : Option JsonVal :=
  match v with
  | .obj fs => jsLookup k fs
  | _ => none

theorem normCause_of_notNull (c : JsonVal) (h : notNull c = true) :
    normCause c =
      .ok (mkCause (jsField c ("description")) (jsField c ("likelihood"))
        (jsField c ("amount")) (jsField c ("transactionIds"))) := by
  cases c with
  | null => simp [notNull] at h
  | bool b => rfl
  | num q => rfl
  | str s => rfl
  | arr l => rfl
  | obj fs => rfl

theorem normCause_obj (cfs : List (String × JsonVal)) :
    normCause (JsonVal.obj cfs) =
      .ok (mkCause (jsLookup ("description") cfs) (jsLookup ("likelihood") cfs)
        (jsLookup ("amount") cfs) (jsLookup ("transactionIds") cfs)) := rfl

theorem normReview_obj (tfs : List (String × JsonVal)) :
    normReview (JsonVal.obj tfs) =
      .ok (mkReview (jsLookup ("id") tfs) (jsLookup ("playerName") tfs)
        (jsLookup ("type") tfs) (jsLookup ("amount") tfs)
        (jsLookup ("paymentMethod") tfs) (jsLookup ("notes") tfs)
        (jsLookup ("reason") tfs)) := rfl

theorem normCause_isOk (c : JsonVal) (h : notNull c = true) :
    (normCause c).isOk = true := by
  rw [normCause_of_notNull c h]
  rfl

theorem normReview_of_notNull (t : JsonVal) (h : notNull t = true) :
    normReview t =
      .ok (mkReview (jsField t ("id")) (jsField t ("playerName"))
        (jsField t ("type")) (jsField t ("amount")) (jsField t ("paymentMethod"))
        (jsField t ("notes")) (jsField t ("reason"))) := by
  cases t with
  | null => simp [notNull] at h
  | bool b => rfl
  | num q => rfl
  | str s => rfl
  | arr l => rfl
  | obj fs => rfl

theorem normReview_isOk (t : JsonVal) (h : notNull t = true) :
    (normReview t).isOk = true := by
  rw [normReview_of_notNull t h]
  rfl

theorem mapME_isOk {α : Type} (f : JsonVal → Except Unit α) (l : List JsonVal)
    (h : ∀ e ∈ l, (f e).isOk = true) : (mapME f l).isOk = true := by
  induction l with
  | nil => rfl
  | cons e rest ih =>
    have he := h e (List.mem_cons_self e rest)
    have hr := ih fun x hx => h x (List.mem_cons_of_mem e hx)
    cases hfe : f e with
    | error u => rw [hfe] at he; simp [Except.isOk, Except.toBool] at he
    | ok b =>
      cases hrest : mapME f rest with
      | error u => rw [hrest] at hr; simp [Except.isOk, Except.toBool] at hr
      | ok bs => simp [mapME, hfe, hrest, Except.isOk, Except.toBool]

theorem mapArray_isOk {α : Type} (f : JsonVal → Except Unit α) (v : Option JsonVal)
    (hshape : arrFieldOk v = true) (hf : ∀ e, notNull e = true → (f e).isOk = true) :
    (mapArray v f).isOk = true := by
  unfold arrFieldOk at hshape
  by_cases ht : jsTruthy v = true
  · rw [if_pos ht] at hshape
    cases v with
    | none => simp [jsTruthy] at ht
    | some w =>
      cases w <;> simp at hshape
      rename_i l
      have : mapArray (some (JsonVal.arr l)) f = mapME f l := by
        simp [mapArray, jsOr, ht]
      rw [this]
      exact mapME_isOk f l fun e he => hf e (by
        have := hshape e he
        cases e <;> simp [notNull] at this ⊢)
  · have ht' : jsTruthy v = false := by revert ht; cases jsTruthy v <;> simp
    have : mapArray v f = mapME f [] := by
      simp [mapArray, jsOr, ht']
    rw [this]
    exact mapME_isOk f [] (by simp)

/-- The exact likelihood coercion: one of the three tier strings is kept,
any other string becomes `medium`, and a missing or non-string field becomes
`medium`. -/
theorem mkCause_likelihood_map (d l a t : Option JsonVal) :
    (∀ s : String, l = some (JsonVal.str s) →
      ((s = "high" ∨ s = "medium" ∨ s = "low") → (mkCause d l a t).likelihood = s) ∧
      (¬(s = "high" ∨ s = "medium" ∨ s = "low") →
        (mkCause d l a t).likelihood = "medium")) ∧
    ((∀ s : String, l ≠ some (JsonVal.str s)) →
      (mkCause d l a t).likelihood = "medium") := by
  constructor
  · intro s hl
    subst hl
    constructor
    · intro hs
      simp [mkCause, hs]
    · intro hs
      simp [mkCause, hs]
  · intro hns
    cases l with
    | none => rfl
    | some v =>
      cases v with
      | str s => exact absurd rfl (hns s)
      | null => rfl
      | bool b => rfl
      | num q => rfl
      | arr l2 => rfl
      | obj fs2 => rfl

/-- C6 counterexample: the collaborator reply `{}` — every field missing —
normalizes successfully, with possibleCauses and transactionsToReview empty
but recommendations equal to the fixed two-element default list, not the
empty array the claim requires for a missing array field. -/
theorem c6_refuted :
    normRecommendations (JsonVal.obj []) = .ok defaultRecommendations ∧
    normPossibleCauses (JsonVal.obj []) = .ok [] ∧
    normTransactionsToReview (JsonVal.obj []) = .ok [] ∧
    defaultRecommendations ≠ ([] : List String) := by
  refine ⟨?_, ?_, ?_, by simp [defaultRecommendations]⟩
  · simp [normRecommendations, jsGet, jsLookup, except_bind_ok, except_pure_eq]
  · simp [normPossibleCauses, jsGet, jsLookup, except_bind_ok, mapArray, jsOr,
      jsTruthy, mapME]
  · simp [normTransactionsToReview, jsGet, jsLookup, except_bind_ok, mapArray, jsOr,
      jsTruthy, mapME]

/-- C6 (amended): the normalization's fallbacks, as the code implements them:
missing possibleCauses and transactionsToReview become empty arrays, but a
missing recommendations field becomes the fixed two-recommendation default
list; every normalized likelihood lies in high/medium/low, and the coercion
is exactly: one of those three strings is kept, while any other value — a
different string, a non-string, or a missing field — becomes `medium`; a
missing or non-numeric cause amount becomes absent while a missing or
non-numeric review amount becomes 0; a missing playerName becomes the
placeholder `Unknown` and a missing description becomes the empty string;
and on every reply of non-throwing shape (non-null, with the two mapped
array fields falsy or arrays of non-null entries) the whole normalization
succeeds. -/
theorem normalization_fallbacks :
    (∀ fs, jsLookup ("possibleCauses") fs = none →
      normPossibleCauses (JsonVal.obj fs) = .ok []) ∧
    (∀ fs, jsLookup ("transactionsToReview") fs = none →
      normTransactionsToReview (JsonVal.obj fs) = .ok []) ∧
    (∀ fs, jsLookup ("recommendations") fs = none →
      normRecommendations (JsonVal.obj fs) = .ok defaultRecommendations) ∧
    (∀ c r, normCause c = .ok r →
      r.likelihood = "high" ∨ r.likelihood = "medium" ∨ r.likelihood = "low") ∧
    (∀ c r, normCause c = .ok r →
      (∀ s : String, jsField c ("likelihood") = some (JsonVal.str s) →
        ((s = "high" ∨ s = "medium" ∨ s = "low") → r.likelihood = s) ∧
        (¬(s = "high" ∨ s = "medium" ∨ s = "low") → r.likelihood = "medium")) ∧
      ((∀ s : String, jsField c ("likelihood") ≠ some (JsonVal.str s)) →
        r.likelihood = "medium")) ∧
    (∀ cfs r, normCause (JsonVal.obj cfs) = .ok r →
      (∀ q : Rat, jsLookup ("amount") cfs ≠ some (JsonVal.num q)) →
      r.amount = none) ∧
    (∀ cfs r, normCause (JsonVal.obj cfs) = .ok r →
      jsLookup ("description") cfs = none → r.description = "") ∧
    (∀ tfs r, normReview (JsonVal.obj tfs) = .ok r →
      jsLookup ("playerName") tfs = none → r.playerName = "Unknown") ∧
    (∀ tfs r, normReview (JsonVal.obj tfs) = .ok r →
      (∀ q : Rat, jsLookup ("amount") tfs ≠ some (JsonVal.num q)) →
      r.amount = 0) ∧
    (∀ ai d, normShapeOk ai = true →
      (normPossibleCauses ai).isOk = true ∧
      (normTransactionsToReview ai).isOk = true ∧
      (normRecommendations ai).isOk = true ∧
      (normSummary ai d).isOk = true) := by
  refine ⟨?_, ?_, ?_, ?_, ?_, ?_, ?_, ?_, ?_, ?_⟩
  · intro fs hmiss
    simp [normPossibleCauses, jsGet, hmiss, except_bind_ok, mapArray, jsOr,
      jsTruthy, mapME]
  · intro fs hmiss
    simp [normTransactionsToReview, jsGet, hmiss, except_bind_ok, mapArray, jsOr,
      jsTruthy, mapME]
  · intro fs hmiss
    simp [normRecommendations, jsGet, hmiss, except_bind_ok, except_pure_eq]
  · intro c r h
    have hlik : ∀ d l a t, (mkCause d l a t).likelihood = "high" ∨
        (mkCause d l a t).likelihood = "medium" ∨
        (mkCause d l a t).likelihood = "low" := by
      intro d l a t
      cases l with
      | none => right; left; rfl
      | some v =>
        cases v with
        | str s =>
          by_cases hs : s = "high" ∨ s = "medium" ∨ s = "low"
          · have he : (mkCause d (some (JsonVal.str s)) a t).likelihood = s := by
              simp [mkCause, hs]
            rw [he]
            tauto
          · have he : (mkCause d (some (JsonVal.str s)) a t).likelihood = "medium" := by
              simp [mkCause, hs]
            rw [he]
            tauto
        | null => right; left; rfl
        | bool b => right; left; rfl
        | num q => right; left; rfl
        | arr l2 => right; left; rfl
        | obj fs2 => right; left; rfl
    cases c with
    | null =>
      rw [show normCause JsonVal.null = (Except.error () : Except Unit TillAnalysisCause)
        from rfl] at h
      exact absurd h (by simp)
    | bool b =>
      rw [normCause_of_notNull (JsonVal.bool b) rfl, Except.ok.injEq] at h
      rw [← h]; exact hlik _ _ _ _
    | num q =>
      rw [normCause_of_notNull (JsonVal.num q) rfl, Except.ok.injEq] at h
      rw [← h]; exact hlik _ _ _ _
    | str s =>
      rw [normCause_of_notNull (JsonVal.str s) rfl, Except.ok.injEq] at h
      rw [← h]; exact hlik _ _ _ _
    | arr l =>
      rw [normCause_of_notNull (JsonVal.arr l) rfl, Except.ok.injEq] at h
      rw [← h]; exact hlik _ _ _ _
    | obj cfs =>
      rw [normCause_of_notNull (JsonVal.obj cfs) rfl, Except.ok.injEq] at h
      rw [← h]; exact hlik _ _ _ _
  · intro c r h
    cases c with
    | null =>
      rw [show normCause JsonVal.null = (Except.error () : Except Unit TillAnalysisCause)
        from rfl] at h
      exact absurd h (by simp)
    | bool b =>
      rw [normCause_of_notNull (JsonVal.bool b) rfl, Except.ok.injEq] at h
      rw [← h]; exact mkCause_likelihood_map _ _ _ _
    | num q =>
      rw [normCause_of_notNull (JsonVal.num q) rfl, Except.ok.injEq] at h
      rw [← h]; exact mkCause_likelihood_map _ _ _ _
    | str s =>
      rw [normCause_of_notNull (JsonVal.str s) rfl, Except.ok.injEq] at h
      rw [← h]; exact mkCause_likelihood_map _ _ _ _
    | arr l =>
      rw [normCause_of_notNull (JsonVal.arr l) rfl, Except.ok.injEq] at h
      rw [← h]; exact mkCause_likelihood_map _ _ _ _
    | obj cfs =>
      rw [normCause_of_notNull (JsonVal.obj cfs) rfl, Except.ok.injEq] at h
      rw [← h]; exact mkCause_likelihood_map _ _ _ _
  · intro cfs r h hq
    rw [normCause_obj, Except.ok.injEq] at h
    rw [← h]
    show (match jsLookup ("amount") cfs with
      | some (JsonVal.num q) => some q
      | _ => none) = none
    cases ha : jsLookup ("amount") cfs with
    | none => rfl
    | some v =>
      cases v with
      | num q => exact absurd ha (hq q)
      | null => rfl
      | bool b => rfl
      | str s => rfl
      | arr l => rfl
      | obj fs2 => rfl
  · intro cfs r h hmiss
    rw [normCause_obj, hmiss, Except.ok.injEq] at h
    rw [← h]
    show jsToString (jsOr none (JsonVal.str "")) = ""
    simp [jsOr, jsTruthy, jsToString]
  · intro tfs r h hmiss
    rw [normReview_obj, hmiss, Except.ok.injEq] at h
    rw [← h]
    show jsToString (jsOr none (JsonVal.str ("Unknown"))) = "Unknown"
    simp [jsOr, jsTruthy, jsToString]
  · intro tfs r h hq
    rw [normReview_obj, Except.ok.injEq] at h
    rw [← h]
    show (match jsLookup ("amount") tfs with
      | some (JsonVal.num q) => q
      | _ => (0 : Rat)) = (0 : Rat)
    cases ha : jsLookup ("amount") tfs with
    | none => rfl
    | some v =>
      cases v with
      | num q => exact absurd ha (hq q)
      | null => rfl
      | bool b => rfl
      | str s => rfl
      | arr l => rfl
      | obj fs2 => rfl
  · intro ai d hshape
    cases ai with
    | null => simp [normShapeOk] at hshape
    | obj fs =>
      have hsp : arrFieldOk (jsLookup ("possibleCauses") fs) = true ∧
          arrFieldOk (jsLookup ("transactionsToReview") fs) = true := by
        simpa [normShapeOk, Bool.and_eq_true] using hshape
      refine ⟨?_, ?_, ?_, ?_⟩
      · have := mapArray_isOk normCause _ hsp.1 normCause_isOk
        simpa [normPossibleCauses, jsGet, except_bind_ok] using this
      · have := mapArray_isOk normReview _ hsp.2 normReview_isOk
        simpa [normTransactionsToReview, jsGet, except_bind_ok] using this
      · simp only [normRecommendations, jsGet, except_bind_ok]
        split <;> rfl
      · simp [normSummary, jsGet, except_bind_ok, except_pure_eq, Except.isOk,
          Except.toBool]
    | bool b =>
      exact ⟨rfl, rfl, rfl, rfl⟩
    | num q =>
      exact ⟨rfl, rfl, rfl, rfl⟩
    | str s =>
      exact ⟨rfl, rfl, rfl, rfl⟩
    | arr l =>
      exact ⟨rfl, rfl, rfl, rfl⟩

/-! ## C9: claiming a dealer's tips with a payout percentage -/

structure ClaimTipsByDealerResponse where
  updatedCount : Nat
  totalTipsClaimed : Rat
  ownerCut : Rat
  dealerPayout : Rat

/-- The endpoint's row filter: this dealer's unpaid downs in this session. -/
def unpaidTipsFilter (sid dealer : String) (d : DealerDown) : Bool :=
  decide (d.gameSessionId = sid) && decide (d.dealerName = dealer) &&
    decide (d.tipsPaid = false)

/-- POST /claim-tips-by-dealer over the dealer-down store: the response and
the updated store.  No matching unpaid downs short-circuits to zeros;
otherwise the split is computed and `updateMany` flips `tipsPaid` on exactly
the matching rows (`updateResult.count` is their number). -/
def claimTipsByDealer (store : List DealerDown) (sid dealer : String)
    (percentage : Rat) : ClaimTipsByDealerResponse × List DealerDown :=
  let unpaidDowns := store.filter (unpaidTipsFilter sid dealer)
  if unpaidDowns.isEmpty then
    ({ updatedCount := 0, totalTipsClaimed := 0, ownerCut := 0, dealerPayout := 0 },
      store)
  else
    let totalTips := unpaidDowns.foldl (fun s d => s + d.tips) 0
    let dealerPayout := totalTips * percentage / 100
    ({ updatedCount := unpaidDowns.length
       totalTipsClaimed := totalTips
       ownerCut := totalTips - dealerPayout
       dealerPayout := dealerPayout },
      store.map fun d =>
        if unpaidTipsFilter sid dealer d then { d with tipsPaid := true } else d)

theorem claimTips_eval_empty (store : List DealerDown) (sid dealer : String)
    (p : Rat) (h : store.filter (unpaidTipsFilter sid dealer) = []) :
    claimTipsByDealer store sid dealer p =
      ({ updatedCount := 0, totalTipsClaimed := 0, ownerCut := 0, dealerPayout := 0 },
        store) := by
  simp [claimTipsByDealer, h]

theorem claimTips_eval_nonempty (store : List DealerDown) (sid dealer : String)
    (p : Rat) (h : ¬ store.filter (unpaidTipsFilter sid dealer) = []) :
    claimTipsByDealer store sid dealer p =
      ({ updatedCount := (store.filter (unpaidTipsFilter sid dealer)).length
         totalTipsClaimed :=
           sumOf (fun d => d.tips) (store.filter (unpaidTipsFilter sid dealer))
         ownerCut :=
           sumOf (fun d => d.tips) (store.filter (unpaidTipsFilter sid dealer)) -
             sumOf (fun d => d.tips) (store.filter (unpaidTipsFilter sid dealer)) *
               p / 100
         dealerPayout :=
           sumOf (fun d => d.tips) (store.filter (unpaidTipsFilter sid dealer)) *
             p / 100 },
        store.map fun d =>
          if unpaidTipsFilter sid dealer d then { d with tipsPaid := true } else d) := by
  have hne : (store.filter (unpaidTipsFilter sid dealer)).isEmpty = false := by
    cases hl : store.filter (unpaidTipsFilter sid dealer) with
    | nil => exact absurd hl h
    | cons a l => rfl
  simp [claimTipsByDealer, hne, sumOf, foldl_add_eq]

/-- After the update, every down of this dealer in this session is paid. -/
theorem claimTips_store_paid (store : List DealerDown) (sid dealer : String)
    (p : Rat) :
    ∀ d ∈ (claimTipsByDealer store sid dealer p).2,
      d.gameSessionId = sid → d.dealerName = dealer → d.tipsPaid = true := by
  by_cases h : store.filter (unpaidTipsFilter sid dealer) = []
  · rw [claimTips_eval_empty store sid dealer p h]
    intro d hd hsid hnm
    have hnf := List.filter_eq_nil_iff.mp h d hd
    simp only [unpaidTipsFilter, Bool.and_eq_true, decide_eq_true_eq, not_and] at hnf
    have := hnf ⟨hsid, hnm⟩
    simpa using this
  · rw [claimTips_eval_nonempty store sid dealer p h]
    intro d hd hsid hnm
    obtain ⟨d0, hd0, rfl⟩ := List.mem_map.mp hd
    by_cases hf : unpaidTipsFilter sid dealer d0 = true
    · rw [if_pos hf] at hsid hnm ⊢
    · rw [if_neg hf] at hsid hnm ⊢
      simp only [unpaidTipsFilter, Bool.and_eq_true, decide_eq_true_eq, not_and] at hf
      have := hf ⟨hsid, hnm⟩
      simpa using this

/-- And so a second identical call finds nothing left to update. -/
theorem claimTips_second_call_empty (store : List DealerDown) (sid dealer : String)
    (p : Rat) :
    ((claimTipsByDealer store sid dealer p).2).filter (unpaidTipsFilter sid dealer) =
      [] := by
  refine List.filter_eq_nil_iff.mpr fun d hd => ?_
  have hp := claimTips_store_paid store sid dealer p d hd
  simp only [unpaidTipsFilter, Bool.and_eq_true, decide_eq_true_eq, not_and]
  intro hx
  have := hp hx.1 hx.2
  simp [this]

/-- C9: the claim-tips response satisfies
`dealerPayout = totalTipsClaimed × p / 100` and
`ownerCut = totalTipsClaimed − dealerPayout`, with `totalTipsClaimed` the
tips sum over the dealer's unpaid downs in the session; after the call every
matching down has `tipsPaid` true, and an immediately repeated call returns
`updatedCount = 0`. -/
theorem claimTipsByDealer_correct (store : List DealerDown) (sid dealer : String)
    (p : Rat) :
    (claimTipsByDealer store sid dealer p).1.dealerPayout =
      (claimTipsByDealer store sid dealer p).1.totalTipsClaimed * p / 100 ∧
    (claimTipsByDealer store sid dealer p).1.ownerCut =
      (claimTipsByDealer store sid dealer p).1.totalTipsClaimed -
        (claimTipsByDealer store sid dealer p).1.dealerPayout ∧
    (claimTipsByDealer store sid dealer p).1.totalTipsClaimed =
      sumOf (fun d => d.tips) (store.filter (unpaidTipsFilter sid dealer)) ∧
    (∀ d ∈ (claimTipsByDealer store sid dealer p).2,
      d.gameSessionId = sid → d.dealerName = dealer → d.tipsPaid = true) ∧
    (claimTipsByDealer ((claimTipsByDealer store sid dealer p).2) sid dealer
      p).1.updatedCount = 0 := by
  refine ⟨?_, ?_, ?_, claimTips_store_paid store sid dealer p, ?_⟩
  · by_cases h : store.filter (unpaidTipsFilter sid dealer) = []
    · rw [claimTips_eval_empty store sid dealer p h]
      norm_num
    · rw [claimTips_eval_nonempty store sid dealer p h]
  · by_cases h : store.filter (unpaidTipsFilter sid dealer) = []
    · rw [claimTips_eval_empty store sid dealer p h]
      norm_num
    · rw [claimTips_eval_nonempty store sid dealer p h]
  · by_cases h : store.filter (unpaidTipsFilter sid dealer) = []
    · rw [claimTips_eval_empty store sid dealer p h, h]
      simp [sumOf]
    · rw [claimTips_eval_nonempty store sid dealer p h]
  · rw [claimTips_eval_empty _ sid dealer p (claimTips_second_call_empty store sid dealer p)]

/-- A concrete store for the C9 witness: two unpaid downs for Ana totalling
100 in tips, one already-paid down, and one down for another dealer. -/
def demoDowns : List DealerDown :=
  [ { id := "d1", dealerName := "Ana", tips := 60, rake := 10, tipsPaid := false,
      rakeClaimed := false, gameSessionId := "s1" },
    { id := "d2", dealerName := "Ana", tips := 40, rake := 0, tipsPaid := false,
      rakeClaimed := false, gameSessionId := "s1" },
    { id := "d3", dealerName := "Ana", tips := 15, rake := 0, tipsPaid := true,
      rakeClaimed := false, gameSessionId := "s1" },
    { id := "d4", dealerName := "Bo", tips := 25, rake := 5, tipsPaid := false,
      rakeClaimed := true, gameSessionId := "s1" } ]

/-- C9 witness: the theorem applied at percentage 70 over the demo store. -/
theorem claimTipsByDealer_correct_witness :
    (claimTipsByDealer demoDowns "s1" "Ana" 70).1.dealerPayout =
      (claimTipsByDealer demoDowns "s1" "Ana" 70).1.totalTipsClaimed * 70 / 100 ∧
    (claimTipsByDealer demoDowns "s1" "Ana" 70).1.ownerCut =
      (claimTipsByDealer demoDowns "s1" "Ana" 70).1.totalTipsClaimed -
        (claimTipsByDealer demoDowns "s1" "Ana" 70).1.dealerPayout ∧
    (claimTipsByDealer demoDowns "s1" "Ana" 70).1.totalTipsClaimed =
      sumOf (fun d => d.tips) (demoDowns.filter (unpaidTipsFilter "s1" "Ana")) ∧
    (∀ d ∈ (claimTipsByDealer demoDowns "s1" "Ana" 70).2,
      d.gameSessionId = "s1" → d.dealerName = "Ana" → d.tipsPaid = true) ∧
    (claimTipsByDealer ((claimTipsByDealer demoDowns "s1" "Ana" 70).2) "s1" "Ana"
      70).1.updatedCount = 0 :=
  claimTipsByDealer_correct demoDowns ("s1") ("Ana") 70

end PokerLedger
